import Mathlib

/-!
Verification of the MDAQA core against its specification.

This file gives a shallow embedding of the two core components of the
repository:

* `src/llm_client.py` — the unified LLM dispatch layer (`LLMClient`):
  provider initialization, per-provider request dispatch, and the
  exponential-backoff retry loop `generate_with_retry`;
* `src/data_loader.py` — the paper-selection logic (`DataLoader`):
  `_load_single_paper` (per-candidate version probing with size and
  first-line filters plus blank-line normalization) and
  `get_paper_content` (community-level aggregation and filters).

Python strings are modelled as `List Char` (one entry per code point, so
`List.length` matches Python's `len`), float-valued delays as `ℚ`, the
content store (a directory of files) as a partial map from paths to stored
files, and the nondeterministic jitter `random.uniform(0, 1)` as an
explicit stream of jitter values.  Network responses are outside the
program: the dispatch layer is embedded as the wire request it builds, and
the retry loop over an abstract dispatcher `Nat → Except ε α` giving the
outcome of each attempt.
-/

namespace MDAQA

/-! ## Configuration (the `llm` and `processing` sections of config.yaml) -/

/-- The `llm:` section of the configuration, with the fields
`_initialize_client` and the generation methods read.  `api_base` is
accessed with `.get` for the openai provider (absent allowed) and with
`[...]` for azure (absent raises `KeyError`), hence an `Option`. -/
structure LLMSection where
  provider : String
  model : String
  temperature : ℚ
  max_tokens : Nat
  api_key : String
  api_base : Option String
  api_version : String
  project_id : String
  region : String

/-- The `processing:` section fields read by `generate_with_retry`. -/
structure ProcessingSection where
  max_retries : Nat
  base_delay : ℚ
  max_delay : ℚ

/-- Python's `str.lower()` on one ASCII character. -/
def lowerChar (c : Char) : Char :=
  if 'A' ≤ c ∧ c ≤ 'Z' then Char.ofNat (c.toNat + 32) else c

/-- Python's `str.lower()` (the provider tags in this code are ASCII). -/
def pyLower (s : String) : String := String.mk (s.data.map lowerChar)

/-! ## `_initialize_client` (llm_client.py lines 31–58) -/

/-- The provider client object built by `_initialize_client`: one of the
three supported SDK clients, holding the connection fields the source
passes to each constructor. -/
inductive Client where
  | openaiClient (api_key : String) (api_base : Option String)
  | azureClient (api_key : String) (azure_endpoint : String) (api_version : String)
  | anthropicClient (project_id : String) (region : String)
deriving DecidableEq

/-- Embeds `LLMClient._initialize_client`: lowercase the configured
provider tag and build the matching client, or raise
`ValueError("Unsupported provider: ...")`.  The azure branch reads
`api_base` with a mandatory lookup, so a missing value is a `KeyError`. -/
def _initialize_client (cfg : LLMSection) : Except String Client :=
  let provider := pyLower cfg.provider
  if provider = "openai" then
    Except.ok (Client.openaiClient cfg.api_key cfg.api_base)
  else if provider = "azure_openai" then
    match cfg.api_base with
    | some base => Except.ok (Client.azureClient cfg.api_key base cfg.api_version)
    | none => Except.error "KeyError: api_base"
  else if provider = "anthropic_vertex" then
    Except.ok (Client.anthropicClient cfg.project_id cfg.region)
  else
    Except.error ("Unsupported provider: " ++ provider)

/-! ## `generate_response` and the per-provider dispatch (lines 60–102) -/

/-- The wire request a call dispatches.  `openaiChat` carries the
`response_format={"type": "json_object"}` flag as a Bool (present iff
`use_json_format`); `anthropicMessages` mirrors `client.messages.create`,
which has no such field. -/
inductive WireCall where
  | openaiChat (model : String) (system_prompt user_prompt : String)
      (temperature : ℚ) (max_tokens : Nat) (json_response_format : Bool)
  | anthropicMessages (model : String) (max_tokens : Nat)
      (system_prompt user_prompt : String) (temperature : ℚ)
deriving DecidableEq

/-- Embeds `_generate_openai_response` up to the network boundary: the
`chat.completions.create(**kwargs)` request it sends. -/
def _generate_openai_response (cfg : LLMSection)
    (system_prompt user_prompt : String) (use_json_format : Bool) : WireCall :=
  WireCall.openaiChat cfg.model system_prompt user_prompt
    cfg.temperature cfg.max_tokens use_json_format

/-- Embeds `_generate_anthropic_response` up to the network boundary: the
`messages.create` request it sends.  Note it takes no JSON-format flag. -/
def _generate_anthropic_response (cfg : LLMSection)
    (system_prompt user_prompt : String) : WireCall :=
  WireCall.anthropicMessages cfg.model cfg.max_tokens
    system_prompt user_prompt cfg.temperature

/-- Embeds `LLMClient.generate_response`: re-read and lowercase the
provider tag, dispatch to the matching generation path, or raise
`ValueError("Response generation not implemented for provider: ...")`. -/
def generate_response (cfg : LLMSection) (system_prompt user_prompt : String)
    (use_json_format : Bool) : Except String WireCall :=
  let provider := pyLower cfg.provider
  if provider = "openai" ∨ provider = "azure_openai" then
    Except.ok (_generate_openai_response cfg system_prompt user_prompt use_json_format)
  else if provider = "anthropic_vertex" then
    Except.ok (_generate_anthropic_response cfg system_prompt user_prompt)
  else
    Except.error ("Response generation not implemented for provider: " ++ provider)

/-! ## `generate_with_retry` (lines 104–122) -/

/-- How a `generate_with_retry` call resolves: a successful response,
the re-raised exception `raise e` of the final attempt, or the
`raise Exception("Max retries exceeded")` after the loop (reached only
when the loop body never runs, i.e. `max_retries = 0`). -/
inductive RetryOutcome (ε α : Type) where
  | ok (a : α) : RetryOutcome ε α
  | raised (e : ε) : RetryOutcome ε α
  | exhausted : RetryOutcome ε α
deriving DecidableEq

/-- The observable trace of one `generate_with_retry` call: its outcome,
how many times it invoked `generate_response`, and the list of delays it
passed to `time.sleep`, in order. -/
structure RetryRun (ε α : Type) where
  outcome : RetryOutcome ε α
  calls : Nat
  sleeps : List ℚ
deriving DecidableEq

/-- Python's built-in `min(a, b)`: `a` when `a <= b`, else `b` (spelled as
an explicit conditional so that concrete runs evaluate inside the kernel). -/
def pyMin (a b : ℚ) : ℚ := if a ≤ b then a else b

/-- The delay of line 118:
`min(max_delay, base_delay * 2**attempt) + random.uniform(0, 1)`, with
the drawn jitter value passed explicitly. -/
def backoffDelay (base_delay max_delay : ℚ) (attempt : Nat) (jitter : ℚ) : ℚ :=
  pyMin max_delay (base_delay * 2 ^ attempt) + jitter

/-- The loop `for attempt in range(max_retries)` of `generate_with_retry`,
as structural recursion on the number of remaining iterations (`fuel`)
with the current `attempt` index carried along; `dispatch n` is the result
of the `generate_response` call made on attempt `n` (`Except.error` = the
call raised), `jitter n` the value `random.uniform(0, 1)` drew before the
sleep following attempt `n`. -/
def retryGo {ε α : Type} (max_retries : Nat) (base_delay max_delay : ℚ)
    (dispatch : Nat → Except ε α) (jitter : Nat → ℚ) :
    Nat → Nat → RetryRun ε α
  | 0, _ => ⟨RetryOutcome.exhausted, 0, []⟩
  | fuel + 1, attempt =>
    match dispatch attempt with
    | Except.ok a => ⟨RetryOutcome.ok a, 1, []⟩
    | Except.error e =>
      if attempt = max_retries - 1 then
        ⟨RetryOutcome.raised e, 1, []⟩
      else
        let d := backoffDelay base_delay max_delay attempt (jitter attempt)
        let rest := retryGo max_retries base_delay max_delay dispatch jitter fuel (attempt + 1)
        ⟨rest.outcome, rest.calls + 1, d :: rest.sleeps⟩

/-- Embeds `LLMClient.generate_with_retry`, starting the loop at
`attempt = 0` with `max_retries` iterations available. -/
def generate_with_retry {ε α : Type} (proc : ProcessingSection)
    (dispatch : Nat → Except ε α) (jitter : Nat → ℚ) : RetryRun ε α :=
  retryGo proc.max_retries proc.base_delay proc.max_delay dispatch jitter
    proc.max_retries 0

/-! ## Data loader embedding (`src/data_loader.py`)

Python strings are `List Char`; `len` is `List.length`. -/

/-- One file of the content store: the byte size `os.path.getsize` reports
and the decoded text (`none` when opening or reading the file raises
`UnicodeDecodeError` or `IOError`). -/
structure StoredFile where
  size : Nat
  text : Option (List Char)
deriving DecidableEq

/-- The SPIQA content store: a partial map from paths to stored files
(`none` = the path does not exist). -/
abbrev ContentStore := List Char → Option StoredFile

/-- The size filter of data_loader.py line 98:
`file_size < min_size or file_size > max_size` (true = the version is
skipped). -/
def sizeRejected (min_size max_size file_size : Nat) : Bool :=
  decide (file_size < min_size) || decide (file_size > max_size)

/-- Python's `f.readline()`: the characters up to and including the first
newline (the whole text when it has no newline). -/
def readLine : List Char → List Char
  | [] => []
  | c :: cs => if c = '\n' then [c] else c :: readLine cs

/-- Whitespace as Python's `str.strip()` removes it (the source texts are
ASCII): space, tab, newline, carriage return, vertical tab, form feed. -/
def isPySpace (c : Char) : Bool :=
  c = ' ' || c = '\t' || c = '\n' || c = '\r' || c = Char.ofNat 11 || c = Char.ofNat 12

/-- Python's `str.strip()`: drop whitespace from both ends. -/
def stripChars (l : List Char) : List Char :=
  ((l.dropWhile isPySpace).reverse.dropWhile isPySpace).reverse

/-- Whether `pat` is a prefix of the second list. -/
def startsWithChars : List Char → List Char → Bool
  | [], _ => true
  | _ :: _, [] => false
  | p :: ps, c :: cs => p == c && startsWithChars ps cs

/-- Python's `pat in s` substring test. -/
def containsSub (pat : List Char) : List Char → Bool
  | [] => startsWithChars pat []
  | c :: cs => startsWithChars pat (c :: cs) || containsSub pat cs

/-- The marker of data_loader.py line 106: `"\\section" in first_line`. -/
def sectionMarker : List Char := "\\section".toList

/-- Python's `content.replace("\n\n", "\n")` (line 111): a single
left-to-right pass replacing non-overlapping newline pairs by one newline
(so a run of three newlines leaves two). -/
def collapseNN : List Char → List Char
  | [] => []
  | [c] => [c]
  | a :: b :: rest =>
    if a = '\n' ∧ b = '\n' then '\n' :: collapseNN rest
    else a :: collapseNN (b :: rest)

/-- `os.path.join(spiqa_path, f"{arxiv_id}v{version}.txt")` for a
directory path without a trailing separator. -/
def versionPath (spiqa_path arxiv_id : List Char) (version : Nat) : List Char :=
  spiqa_path ++ '/' :: (arxiv_id ++ 'v' :: (Nat.toDigits 10 version ++ ".txt".toList))

/-- One iteration of the version loop of `_load_single_paper` (lines
90–115): `some content` when this version exists, passes the size filter,
decodes, and its stripped first line does not contain `\section`; `none`
when any check fails (the loop then continues with the next version). -/
def tryVersion (fs : ContentStore) (spiqa_path arxiv_id : List Char)
    (min_size max_size : Nat) (version : Nat) : Option (List Char) :=
  match fs (versionPath spiqa_path arxiv_id version) with
  | none => none
  | some file =>
    if sizeRejected min_size max_size file.size then none
    else
      match file.text with
      | none => none
      | some txt =>
        if containsSub sectionMarker (stripChars (readLine txt)) then none
        else some (collapseNN txt)

/-- Embeds `DataLoader._load_single_paper`: probe versions 1 through 14 in
order and return the first acceptable version's normalized content, else
`None`. -/
def _load_single_paper (arxiv_id spiqa_path : List Char)
    (min_size max_size : Nat) (fs : ContentStore) : Option (List Char) :=
  (List.range' 1 14).findSome? (tryVersion fs spiqa_path arxiv_id min_size max_size)

/-- The labelled block `get_paper_content` appends for one accepted paper
(line 71). -/
def paperBlock (title arxiv_id content : List Char) : List Char :=
  "**title**: ".toList ++ title ++ '\n' :: ("**arxiv_id**: ".toList ++ arxiv_id)
    ++ '\n' :: ("**content**: ".toList ++ content) ++ "\n\n".toList

/-- The accumulation loop of `get_paper_content` (lines 68–72): fold over
the `(arxiv_id, title)` candidates, appending the block and recording the
candidate when `_load_single_paper` returns truthy (non-`None`, non-empty)
content. -/
def accumulatePapers (spiqa_path : List Char) (min_size max_size : Nat)
    (fs : ContentStore) (arxiv_ids : List (List Char × List Char)) :
    List Char × List (List Char × List Char) :=
  arxiv_ids.foldl
    (fun acc p =>
      match _load_single_paper p.1 spiqa_path min_size max_size fs with
      | some content =>
        if content.isEmpty then acc
        else (acc.1 ++ paperBlock p.2 p.1 content, acc.2 ++ [p])
      | none => acc)
    ([], [])

/-- Embeds `DataLoader.get_paper_content`: convert the configured
kilobyte bounds to bytes, accumulate the accepted papers, then apply the
community-level filters (at least 2 papers, combined length at most
`max_content_length`); both failures return `(None, None)`. -/
def get_paper_content (spiqa_path : List Char)
    (min_file_size max_file_size max_content_length : Nat)
    (fs : ContentStore) (arxiv_ids : List (List Char × List Char)) :
    Option (List Char) × Option (List (List Char × List Char)) :=
  let min_size := min_file_size * 1024
  let max_size := max_file_size * 1024
  let acc := accumulatePapers spiqa_path min_size max_size fs arxiv_ids
  if acc.2.length ≤ 1 then (none, none)
  else if acc.1.length > max_content_length then (none, none)
  else (some acc.1, some acc.2)

/-! ## Concrete content stores used as witnesses and counterexamples -/

/-- A store where candidate X's version 1 is size-valid but starts with a
`\section` line, while version 2 is acceptable. -/
def storeMarkedV1 : ContentStore := fun path =>
  if path = "papers/Xv1.txt".toList then
    some ⟨2000, some "\\section{Intro}\nalpha body".toList⟩
  else if path = "papers/Xv2.txt".toList then
    some ⟨2000, some "beta text\nmore text".toList⟩
  else none

/-- A store whose only file contains a run of three newlines. -/
def storeTripleNewline : ContentStore := fun path =>
  if path = "papers/Yv1.txt".toList then
    some ⟨2000, some "alpha\n\n\nbeta".toList⟩
  else none

/-- A store with one plain acceptable file (no double or triple
newlines). -/
def storePlain : ContentStore := fun path =>
  if path = "papers/Zv1.txt".toList then
    some ⟨2000, some "alpha\nbeta".toList⟩
  else none

/-- Two consecutive newline characters occur somewhere in the list. -/
def hasNN : List Char → Bool
  | a :: b :: rest => (a == '\n' && b == '\n') || hasNN (b :: rest)
  | _ => false

/-- Three consecutive newline characters occur somewhere in the list. -/
def hasNNN : List Char → Bool
  | a :: b :: c :: rest => (a == '\n' && b == '\n' && c == '\n') || hasNNN (b :: c :: rest)
  | _ => false

/-! ## Helper lemmas -/

theorem pyMin_eq_min (a b : ℚ) : pyMin a b = min a b := by
  simp [pyMin, min_def]

/-- When every dispatch attempt raises, the loop runs through all its
remaining iterations and re-raises the final attempt's exception. -/
theorem retryGo_fail_all {ε α : Type} (b d : ℚ) (jitter : Nat → ℚ)
    (dispatch : Nat → Except ε α) (es : Nat → ε)
    (hfail : ∀ i, dispatch i = Except.error (es i)) (m : Nat) :
    ∀ fuel attempt, 1 ≤ fuel → attempt + fuel = m →
      (retryGo m b d dispatch jitter fuel attempt).outcome
          = RetryOutcome.raised (es (m - 1)) ∧
      (retryGo m b d dispatch jitter fuel attempt).calls = fuel := by
  intro fuel
  induction fuel with
  | zero => intro attempt h _; exact absurd h (by omega)
  | succ f ih =>
    intro attempt _ hsum
    by_cases hlast : attempt = m - 1
    · have hf : f = 0 := by omega
      subst hf
      subst hlast
      simp [retryGo, hfail]
    · have hf : 1 ≤ f := by omega
      have hrec := ih (attempt + 1) hf (by omega)
      simp [retryGo, hfail, hlast, hrec.1, hrec.2]

/-- The loop makes at most one dispatch call per remaining iteration. -/
theorem retryGo_calls_le {ε α : Type} (m : Nat) (b d : ℚ)
    (dispatch : Nat → Except ε α) (jitter : Nat → ℚ) :
    ∀ fuel attempt, (retryGo m b d dispatch jitter fuel attempt).calls ≤ fuel := by
  intro fuel
  induction fuel with
  | zero => intro attempt; simp [retryGo]
  | succ f ih =>
    intro attempt
    cases hda : dispatch attempt with
    | ok a => simp [retryGo, hda]
    | error e =>
      by_cases hlast : attempt = m - 1
      · subst hlast
        simp [retryGo, hda]
      · have := ih (attempt + 1)
        simp [retryGo, hda, hlast]
        omega

/-- Each term of the per-iteration delay bound is nonnegative. -/
theorem delayBoundTerm_nonneg (b d : ℚ) (hb : 0 ≤ b) (hd : 0 ≤ d) (i : Nat) :
    (0 : ℚ) ≤ min d (b * 2 ^ i) + 1 := by
  have h2 : (0 : ℚ) ≤ b * 2 ^ i := mul_nonneg hb (by positivity)
  have := le_min hd h2
  linarith

/-- The sleeps of the loop are bounded by one delay-plus-one term per
iteration that can sleep (all but the last remaining one). -/
theorem retryGo_sleeps_le {ε α : Type} (m : Nat) (b d : ℚ)
    (dispatch : Nat → Except ε α) (jitter : Nat → ℚ)
    (hb : 0 ≤ b) (hd : 0 ≤ d) (hj : ∀ i, 0 ≤ jitter i ∧ jitter i < 1) :
    ∀ fuel attempt, attempt + fuel = m →
      (retryGo m b d dispatch jitter fuel attempt).sleeps.sum
        ≤ ((List.range' attempt (fuel - 1)).map (fun i => min d (b * 2 ^ i) + 1)).sum := by
  have hsum_nonneg : ∀ s n : Nat,
      (0 : ℚ) ≤ ((List.range' s n).map (fun i => min d (b * 2 ^ i) + 1)).sum := by
    intro s n
    apply List.sum_nonneg
    intro x hx
    obtain ⟨i, _, rfl⟩ := List.mem_map.mp hx
    exact delayBoundTerm_nonneg b d hb hd i
  intro fuel
  induction fuel with
  | zero => intro attempt _; simp [retryGo]
  | succ f ih =>
    intro attempt hsum
    cases hda : dispatch attempt with
    | ok a => simpa [retryGo, hda] using hsum_nonneg attempt f
    | error e =>
      by_cases hlast : attempt = m - 1
      · subst hlast
        simpa [retryGo, hda] using hsum_nonneg (m - 1) f
      · have hf : 1 ≤ f := by omega
        have hrec := ih (attempt + 1) (by omega)
        have hstep : backoffDelay b d attempt (jitter attempt)
            ≤ min d (b * 2 ^ attempt) + 1 := by
          unfold backoffDelay
          rw [pyMin_eq_min]
          have := (hj attempt).2
          linarith
        have hrange : List.range' attempt f = attempt :: List.range' (attempt + 1) (f - 1) := by
          have hf2 : f = (f - 1) + 1 := by omega
          rw [hf2, List.range'_succ]
          simp
        simp only [retryGo, hda, if_neg hlast, Nat.succ_sub_one]
        rw [hrange]
        simp only [List.map_cons, List.sum_cons, List.sum_cons]
        calc backoffDelay b d attempt (jitter attempt)
              + (retryGo m b d dispatch jitter f (attempt + 1)).sleeps.sum
            ≤ (min d (b * 2 ^ attempt) + 1)
              + ((List.range' (attempt + 1) (f - 1)).map
                  (fun i => min d (b * 2 ^ i) + 1)).sum := add_le_add hstep hrec
          _ = _ := rfl

/-! ## Claim theorems: retry policy -/

/-- C1: with `max_retries = n ≥ 1` and a dispatcher that raises on every
attempt, `generate_with_retry` makes exactly `n` dispatch invocations and
re-raises the final attempt's exception itself (no wrapper, no special
exhausted error). -/
theorem retry_exhaustion_propagates_last_error {ε α : Type}
    (proc : ProcessingSection) (dispatch : Nat → Except ε α) (jitter : Nat → ℚ)
    (es : Nat → ε)
    (hfail : ∀ i, dispatch i = Except.error (es i))
    (hpos : 1 ≤ proc.max_retries) :
    (generate_with_retry proc dispatch jitter).outcome
        = RetryOutcome.raised (es (proc.max_retries - 1)) ∧
    (generate_with_retry proc dispatch jitter).calls = proc.max_retries :=
  retryGo_fail_all proc.base_delay proc.max_delay jitter dispatch es hfail
    proc.max_retries proc.max_retries 0 hpos (by omega)

/-- C1 witness: two failing attempts with `max_retries = 2` re-raise the
second attempt's exception after exactly 2 dispatches. -/
theorem retry_exhaustion_propagates_last_error_witness :
    (generate_with_retry ⟨2, 1, 10⟩ (fun i => (Except.error i : Except Nat Nat))
        (fun _ => 0)).outcome = RetryOutcome.raised 1 ∧
    (generate_with_retry ⟨2, 1, 10⟩ (fun i => (Except.error i : Except Nat Nat))
        (fun _ => 0)).calls = 2 :=
  retry_exhaustion_propagates_last_error ⟨2, 1, 10⟩ _ _ (fun i => i)
    (fun _ => rfl) (by decide)

/-- C3 counterexample: with `base_delay = 1`, `max_delay = 2`,
`max_retries = 4`, `attempt = 2 < max_retries - 1` and jitter 0 (in
`[0,1)`), the computed delay is `2`, strictly below the claimed interval
floor `base_delay * 2 ^ attempt = 4`. -/
theorem backoff_delay_lower_bound_fails :
    (2 : Nat) < 4 - 1 ∧ (0 : ℚ) ≤ 0 ∧ (0 : ℚ) < 1 ∧
    backoffDelay 1 2 2 0 = 2 ∧
    ¬ ((1 : ℚ) * 2 ^ (2 : Nat) ≤ backoffDelay 1 2 2 0) := by
  norm_num [backoffDelay, pyMin]

/-- C3 amended: the delay lies in the half-open interval
`[min(max_delay, base_delay·2^attempt), min(max_delay, base_delay·2^attempt) + 1)`;
consequently it is below `base_delay·2^attempt + 1` and below
`max_delay + 1` (the claimed floor `base_delay·2^attempt` itself holds only
when it does not exceed `max_delay`). -/
theorem backoff_delay_bounds (base_delay max_delay jitter : ℚ)
    (max_retries attempt : Nat) (_hatt : attempt < max_retries - 1)
    (hj0 : 0 ≤ jitter) (hj1 : jitter < 1) :
    min max_delay (base_delay * 2 ^ attempt)
        ≤ backoffDelay base_delay max_delay attempt jitter ∧
    backoffDelay base_delay max_delay attempt jitter
        < min max_delay (base_delay * 2 ^ attempt) + 1 ∧
    backoffDelay base_delay max_delay attempt jitter < base_delay * 2 ^ attempt + 1 ∧
    backoffDelay base_delay max_delay attempt jitter < max_delay + 1 := by
  unfold backoffDelay
  rw [pyMin_eq_min]
  refine ⟨le_add_of_nonneg_right hj0, by linarith, ?_, ?_⟩
  · have h := min_le_right max_delay (base_delay * 2 ^ attempt)
    linarith
  · have h := min_le_left max_delay (base_delay * 2 ^ attempt)
    linarith

/-- C3 amended witness: at `base_delay = 1`, `max_delay = 10`,
`attempt = 0 < 3 - 1`, jitter `1/2`. -/
theorem backoff_delay_bounds_witness :
    min (10 : ℚ) (1 * 2 ^ (0 : Nat)) ≤ backoffDelay 1 10 0 (1/2) ∧
    backoffDelay 1 10 0 (1/2) < min (10 : ℚ) (1 * 2 ^ (0 : Nat)) + 1 ∧
    backoffDelay 1 10 0 (1/2) < 1 * 2 ^ (0 : Nat) + 1 ∧
    backoffDelay 1 10 0 (1/2) < 10 + 1 :=
  backoff_delay_bounds 1 10 (1/2) 3 0 (by norm_num) (by norm_num) (by norm_num)

/-- C7 counterexample: with `max_retries = 2`, `base_delay = 2/5`,
`max_delay = 10` and jitter `9/10 ∈ [0,1)` on every draw, the total
blocking time `13/10` exceeds the claimed bound
`Σ_i min(max_delay, base_delay·2^i) = 6/5`. -/
theorem retry_sleep_bound_fails :
    (0 : ℚ) ≤ 9/10 ∧ (9/10 : ℚ) < 1 ∧
    (generate_with_retry ⟨2, 2/5, 10⟩ (fun i => (Except.error i : Except Nat Nat))
        (fun _ => 9/10)).sleeps.sum = 13/10 ∧
    ¬ ((generate_with_retry ⟨2, 2/5, 10⟩ (fun i => (Except.error i : Except Nat Nat))
        (fun _ => 9/10)).sleeps.sum
      ≤ ((List.range 2).map (fun i => min (10 : ℚ) (2/5 * 2 ^ i))).sum) := by
  norm_num [generate_with_retry, retryGo, backoffDelay, pyMin, List.range_succ, min_def]

/-- C7 amended: a logical request makes at most `max_retries` dispatch
calls, and (for nonnegative configured delays and jitter in `[0,1)`) the
total blocking time is at most
`Σ (min(max_delay, base_delay·2^i) + 1)` over `i ∈ [0, max_retries - 1)` —
one term per sleep actually possible, each inflated by the jitter bound 1. -/
theorem retry_calls_and_sleep_bounds {ε α : Type} (proc : ProcessingSection)
    (dispatch : Nat → Except ε α) (jitter : Nat → ℚ)
    (hb : 0 ≤ proc.base_delay) (hd : 0 ≤ proc.max_delay)
    (hj : ∀ i, 0 ≤ jitter i ∧ jitter i < 1) :
    (generate_with_retry proc dispatch jitter).calls ≤ proc.max_retries ∧
    (generate_with_retry proc dispatch jitter).sleeps.sum
      ≤ ((List.range (proc.max_retries - 1)).map
          (fun i => min proc.max_delay (proc.base_delay * 2 ^ i) + 1)).sum := by
  constructor
  · exact retryGo_calls_le proc.max_retries proc.base_delay proc.max_delay
      dispatch jitter proc.max_retries 0
  · have h := retryGo_sleeps_le proc.max_retries proc.base_delay proc.max_delay
      dispatch jitter hb hd hj proc.max_retries 0 (by omega)
    rw [List.range_eq_range']
    exact h

/-- C7 amended witness: the counterexample configuration satisfies the
amended bound. -/
theorem retry_calls_and_sleep_bounds_witness :
    (generate_with_retry ⟨2, 2/5, 10⟩ (fun i => (Except.error i : Except Nat Nat))
        (fun _ => 9/10)).calls ≤ 2 ∧
    (generate_with_retry ⟨2, 2/5, 10⟩ (fun i => (Except.error i : Except Nat Nat))
        (fun _ => 9/10)).sleeps.sum
      ≤ ((List.range (2 - 1)).map (fun i => min (10 : ℚ) ((2/5) * 2 ^ i) + 1)).sum :=
  retry_calls_and_sleep_bounds ⟨2, 2/5, 10⟩ _ _ (by norm_num) (by norm_num)
    (fun _ => by norm_num)

/-! ## Claim theorems: provider dispatch -/

/-- C9: when the configured provider lowercases to `anthropic_vertex`,
`generate_response` with the JSON flag set succeeds and dispatches exactly
the same wire call as with the flag clear: the flag has no observable
effect on that variant. -/
theorem anthropic_ignores_json_flag (cfg : LLMSection) (sp up : String)
    (hp : pyLower cfg.provider = "anthropic_vertex") :
    generate_response cfg sp up true = generate_response cfg sp up false ∧
    generate_response cfg sp up true
      = Except.ok (_generate_anthropic_response cfg sp up) := by
  have h1 : ¬("anthropic_vertex" = "openai" ∨ "anthropic_vertex" = "azure_openai") := by
    decide
  unfold generate_response
  rw [hp]
  constructor
  · rw [if_neg h1, if_neg h1]
  · rw [if_neg h1, if_pos rfl]

/-- C9 witness: a concrete anthropic_vertex configuration. -/
theorem anthropic_ignores_json_flag_witness :
    generate_response ⟨"anthropic_vertex", "m", 1, 100, "k", none, "v", "p", "r"⟩
        "s" "u" true
      = generate_response ⟨"anthropic_vertex", "m", 1, 100, "k", none, "v", "p", "r"⟩
        "s" "u" false ∧
    generate_response ⟨"anthropic_vertex", "m", 1, 100, "k", none, "v", "p", "r"⟩
        "s" "u" true
      = Except.ok (_generate_anthropic_response
          ⟨"anthropic_vertex", "m", 1, 100, "k", none, "v", "p", "r"⟩ "s" "u") :=
  anthropic_ignores_json_flag _ "s" "u" (by decide)

/-- C10: when `_initialize_client` accepted the configuration, the
"Response generation not implemented" branch of `generate_response` is
unreachable: every call dispatches to one of the two provider paths and
yields a wire call. -/
theorem generate_response_total_after_init (cfg : LLMSection) (c : Client)
    (hinit : _initialize_client cfg = Except.ok c)
    (sp up : String) (use_json_format : Bool) :
    ∃ w, generate_response cfg sp up use_json_format = Except.ok w := by
  unfold _initialize_client at hinit
  by_cases h1 : pyLower cfg.provider = "openai"
  · refine ⟨_generate_openai_response cfg sp up use_json_format, ?_⟩
    simp [generate_response, h1]
  · by_cases h2 : pyLower cfg.provider = "azure_openai"
    · refine ⟨_generate_openai_response cfg sp up use_json_format, ?_⟩
      simp [generate_response, h1, h2]
    · by_cases h3 : pyLower cfg.provider = "anthropic_vertex"
      · refine ⟨_generate_anthropic_response cfg sp up, ?_⟩
        simp [generate_response, h1, h2, h3]
      · simp [h1, h2, h3] at hinit

/-- C10 witness: a concrete accepted openai configuration. -/
theorem generate_response_total_after_init_witness :
    ∃ w, generate_response ⟨"openai", "m", 1, 100, "k", none, "v", "p", "r"⟩
        "s" "u" true = Except.ok w :=
  generate_response_total_after_init
    ⟨"openai", "m", 1, 100, "k", none, "v", "p", "r"⟩
    (Client.openaiClient "k" none) rfl "s" "u" true

/-! ## Helper lemmas: paper selection -/

/-- A scan skips every element on which the probe yields `none`. -/
theorem findSome?_skip_none {α β : Type} (f : α → Option β) :
    ∀ (pre rest : List α), (∀ a ∈ pre, f a = none) →
      (pre ++ rest).findSome? f = rest.findSome? f := by
  intro pre
  induction pre with
  | nil => intro rest _; rfl
  | cons a l ih =>
    intro rest h
    have ha : f a = none := h a (List.mem_cons_self a l)
    rw [List.cons_append, List.findSome?_cons, ha]
    exact ih rest (fun x hx => h x (List.mem_cons_of_mem a hx))

/-- Inversion for `tryVersion`: an accepted version comes from a stored
file whose text decoded, and the returned content is its normalized
text. -/
theorem tryVersion_eq_some {fs : ContentStore} {spiqa_path arxiv_id : List Char}
    {min_size max_size v : Nat} {c : List Char}
    (h : tryVersion fs spiqa_path arxiv_id min_size max_size v = some c) :
    ∃ file txt, fs (versionPath spiqa_path arxiv_id v) = some file ∧
      file.text = some txt ∧ c = collapseNN txt := by
  unfold tryVersion at h
  split at h
  · exact absurd h (by simp)
  next file hfs =>
    split at h
    · exact absurd h (by simp)
    · split at h
      · exact absurd h (by simp)
      next txt htxt =>
        split at h
        · exact absurd h (by simp)
        · injection h with h
          exact ⟨file, txt, hfs, htxt, h.symm⟩

/-- The first element of a nonempty list survives the collapsing pass. -/
theorem collapseNN_cons (c : Char) (l : List Char) :
    ∃ t, collapseNN (c :: l) = c :: t := by
  match l with
  | [] => exact ⟨[], rfl⟩
  | b :: r =>
    by_cases h : c = '\n' ∧ b = '\n'
    · obtain ⟨hc, hb⟩ := h
      subst hc
      subst hb
      exact ⟨collapseNN r, by simp [collapseNN]⟩
    · exact ⟨collapseNN (b :: r), by simp [collapseNN, h]⟩

/-- Dropping the head preserves triple-newline freedom. -/
theorem hasNNN_tail (a : Char) (l : List Char) (h : hasNNN (a :: l) = false) :
    hasNNN l = false := by
  match l with
  | [] => rfl
  | [b] => rfl
  | b :: c :: r =>
    simp only [hasNNN, Bool.or_eq_false_iff] at h
    exact h.2

/-- After two newlines, triple-newline freedom forces a non-newline. -/
theorem hasNNN_third (c : Char) (r : List Char)
    (h : hasNNN ('\n' :: '\n' :: c :: r) = false) : (c == '\n') = false := by
  simp only [hasNNN, Bool.or_eq_false_iff] at h
  simpa using h.1

/-- Text with no triple-newline run has no double newline left after the
collapsing pass. -/
theorem collapseNN_no_double :
    ∀ l : List Char, hasNNN l = false → hasNN (collapseNN l) = false
  | [] => fun _ => rfl
  | [c] => fun _ => by
    rw [show collapseNN [c] = [c] from rfl]
    rfl
  | a :: b :: rest => fun h => by
    by_cases hab : a = '\n' ∧ b = '\n'
    · obtain ⟨ha, hb⟩ := hab
      subst ha
      subst hb
      rw [show collapseNN ('\n' :: '\n' :: rest) = '\n' :: collapseNN rest from by
        simp [collapseNN]]
      match rest with
      | [] => decide
      | c :: r =>
        have hc : (c == '\n') = false := hasNNN_third c r h
        have hrest : hasNNN (c :: r) = false :=
          hasNNN_tail '\n' (c :: r) (hasNNN_tail '\n' ('\n' :: c :: r) h)
        obtain ⟨t, ht⟩ := collapseNN_cons c r
        rw [ht]
        have hind := collapseNN_no_double (c :: r) hrest
        rw [ht] at hind
        simp [hasNN, hc, hind]
    · rw [show collapseNN (a :: b :: rest) = a :: collapseNN (b :: rest) from by
        simp [collapseNN, hab]]
      have hbrest : hasNNN (b :: rest) = false := hasNNN_tail a (b :: rest) h
      obtain ⟨t, ht⟩ := collapseNN_cons b rest
      have hind := collapseNN_no_double (b :: rest) hbrest
      rw [ht] at hind
      rw [ht]
      have hab2 : (a == '\n' && b == '\n') = false := by
        rcases Decidable.not_and_iff_or_not.mp hab with h1 | h1 <;> simp [h1]
      simp [hasNN, hab2, hind]

/-! ## Claim theorems: paper selection -/

/-- C2: `get_paper_content` either returns the explicit absent outcome
`(None, None)` or a successful selection with at least 2 contributing
papers and combined length at most `max_content_length` — never a partial
result. -/
theorem selection_invariant (spiqa_path : List Char)
    (min_file_size max_file_size max_content_length : Nat)
    (fs : ContentStore) (arxiv_ids : List (List Char × List Char)) :
    get_paper_content spiqa_path min_file_size max_file_size max_content_length
        fs arxiv_ids = (none, none) ∨
    ∃ c v, get_paper_content spiqa_path min_file_size max_file_size
          max_content_length fs arxiv_ids = (some c, some v) ∧
        2 ≤ v.length ∧ c.length ≤ max_content_length := by
  by_cases h1 : (accumulatePapers spiqa_path (min_file_size * 1024)
      (max_file_size * 1024) fs arxiv_ids).2.length ≤ 1
  · left
    simp [get_paper_content, h1]
  · by_cases h2 : (accumulatePapers spiqa_path (min_file_size * 1024)
        (max_file_size * 1024) fs arxiv_ids).1.length > max_content_length
    · left
      simp [get_paper_content, h1, h2]
    · right
      exact ⟨(accumulatePapers spiqa_path (min_file_size * 1024)
            (max_file_size * 1024) fs arxiv_ids).1,
        (accumulatePapers spiqa_path (min_file_size * 1024)
            (max_file_size * 1024) fs arxiv_ids).2,
        by simp [get_paper_content, h1, h2], by omega, by omega⟩

/-- C6: after kilobyte-to-byte conversion the size filter is inclusive at
both ends: exactly `min_file_size·1024` bytes passes, one byte below is
rejected, exactly `max_file_size·1024` passes, one byte above is
rejected. -/
theorem size_filter_inclusive (min_file_size max_file_size : Nat)
    (hmin : 1 ≤ min_file_size) (hord : min_file_size ≤ max_file_size) :
    sizeRejected (min_file_size * 1024) (max_file_size * 1024)
        (min_file_size * 1024) = false ∧
    sizeRejected (min_file_size * 1024) (max_file_size * 1024)
        (min_file_size * 1024 - 1) = true ∧
    sizeRejected (min_file_size * 1024) (max_file_size * 1024)
        (max_file_size * 1024) = false ∧
    sizeRejected (min_file_size * 1024) (max_file_size * 1024)
        (max_file_size * 1024 + 1) = true := by
  unfold sizeRejected
  refine ⟨?_, ?_, ?_, ?_⟩ <;> simp <;> omega

/-- C6 witness: `min_file_size = 1` KB, `max_file_size = 2` KB. -/
theorem size_filter_inclusive_witness :
    sizeRejected 1024 2048 1024 = false ∧
    sizeRejected 1024 2048 1023 = true ∧
    sizeRejected 1024 2048 2048 = false ∧
    sizeRejected 1024 2048 2049 = true :=
  size_filter_inclusive 1 2 (by decide) (by decide)

/-- C4 counterexample: candidate X's version 1 exists, is size-valid, and
its first line contains the section marker, yet `_load_single_paper`
accepts version 2's content instead of rejecting the whole candidate. -/
theorem marked_first_version_accepts_later :
    storeMarkedV1 (versionPath "papers".toList "X".toList 1)
        = some ⟨2000, some "\\section{Intro}\nalpha body".toList⟩ ∧
    sizeRejected 1024 4096 2000 = false ∧
    containsSub sectionMarker
        (stripChars (readLine "\\section{Intro}\nalpha body".toList)) = true ∧
    _load_single_paper "X".toList "papers".toList 1024 4096 storeMarkedV1
        = some (collapseNN "beta text\nmore text".toList) := by
  refine ⟨by decide, by decide, by decide, by decide⟩

/-- C4 amended: a probed version whose first line contains the section
marker (all earlier probed versions having been rejected) causes only that
version to be skipped: the loader's result is exactly that of continuing
the probe over the remaining versions, so the candidate is not rejected
outright. -/
theorem marked_version_skipped_only (arxiv_id spiqa_path : List Char)
    (min_size max_size : Nat) (fs : ContentStore)
    (v : Nat) (pre post : List Nat)
    (hsplit : List.range' 1 14 = pre ++ v :: post)
    (hpre : ∀ w ∈ pre, tryVersion fs spiqa_path arxiv_id min_size max_size w = none)
    (file : StoredFile) (txt : List Char)
    (hfs : fs (versionPath spiqa_path arxiv_id v) = some file)
    (hsize : sizeRejected min_size max_size file.size = false)
    (htxt : file.text = some txt)
    (hmark : containsSub sectionMarker (stripChars (readLine txt)) = true) :
    _load_single_paper arxiv_id spiqa_path min_size max_size fs
      = post.findSome? (tryVersion fs spiqa_path arxiv_id min_size max_size) := by
  have hv : tryVersion fs spiqa_path arxiv_id min_size max_size v = none := by
    simp [tryVersion, hfs, hsize, htxt, hmark]
  unfold _load_single_paper
  rw [hsplit, findSome?_skip_none _ pre _ hpre, List.findSome?_cons, hv]

/-- C4 amended witness: in `storeMarkedV1`, version 1's marker only moves
the probe on to versions 2..14. -/
theorem marked_version_skipped_only_witness :
    _load_single_paper "X".toList "papers".toList 1024 4096 storeMarkedV1
      = (List.range' 2 13).findSome?
          (tryVersion storeMarkedV1 "papers".toList "X".toList 1024 4096) :=
  marked_version_skipped_only "X".toList "papers".toList 1024 4096 storeMarkedV1
    1 [] (List.range' 2 13) rfl (fun w hw => absurd hw (List.not_mem_nil w))
    ⟨2000, some "\\section{Intro}\nalpha body".toList⟩
    "\\section{Intro}\nalpha body".toList
    (by decide) (by decide) rfl (by decide)

/-- C8: when version 1 exists, is size-valid, but its first line carries
the section marker, and some higher version is the first acceptable one
among 2..14, `_load_single_paper` returns exactly that version's
content — the heuristic excludes only version 1 and probing continues
upward. -/
theorem first_acceptable_higher_version_wins (arxiv_id spiqa_path : List Char)
    (min_size max_size : Nat) (fs : ContentStore)
    (file1 : StoredFile) (txt1 : List Char)
    (hfs1 : fs (versionPath spiqa_path arxiv_id 1) = some file1)
    (hsize1 : sizeRejected min_size max_size file1.size = false)
    (htxt1 : file1.text = some txt1)
    (hmark1 : containsSub sectionMarker (stripChars (readLine txt1)) = true)
    (v0 : Nat) (pre post : List Nat)
    (hsplit : List.range' 2 13 = pre ++ v0 :: post)
    (hpre : ∀ w ∈ pre, tryVersion fs spiqa_path arxiv_id min_size max_size w = none)
    (c : List Char)
    (hv0 : tryVersion fs spiqa_path arxiv_id min_size max_size v0 = some c) :
    _load_single_paper arxiv_id spiqa_path min_size max_size fs = some c := by
  have h1 : tryVersion fs spiqa_path arxiv_id min_size max_size 1 = none := by
    simp [tryVersion, hfs1, hsize1, htxt1, hmark1]
  have hr : List.range' 1 14 = 1 :: List.range' 2 13 := rfl
  unfold _load_single_paper
  rw [hr, List.findSome?_cons, h1, hsplit,
    findSome?_skip_none _ pre _ hpre, List.findSome?_cons, hv0]

/-- C8 witness: in `storeMarkedV1`, version 2 is the first acceptable
higher version and its content is returned. -/
theorem first_acceptable_higher_version_wins_witness :
    _load_single_paper "X".toList "papers".toList 1024 4096 storeMarkedV1
      = some (collapseNN "beta text\nmore text".toList) :=
  first_acceptable_higher_version_wins "X".toList "papers".toList 1024 4096
    storeMarkedV1 ⟨2000, some "\\section{Intro}\nalpha body".toList⟩
    "\\section{Intro}\nalpha body".toList (by decide) (by decide) rfl (by decide)
    2 [] (List.range' 3 12) rfl (fun w hw => absurd hw (List.not_mem_nil w))
    (collapseNN "beta text\nmore text".toList) (by decide)

/-- C5 counterexample: a stored file with a three-newline run yields
returned content that still contains two consecutive newlines. -/
theorem triple_newline_survives :
    hasNNN "alpha\n\n\nbeta".toList = true ∧
    _load_single_paper "Y".toList "papers".toList 1024 4096 storeTripleNewline
        = some "alpha\n\nbeta".toList ∧
    hasNN "alpha\n\nbeta".toList = true := by
  refine ⟨by decide, by decide, by decide⟩

/-- C5 amended: the loader applies the single non-overlapping
pair-collapsing pass, so returned content is free of double newlines
provided no stored file contains a run of three or more newlines (longer
runs can survive as double newlines, as the counterexample shows). -/
theorem no_double_newline_when_no_triple (arxiv_id spiqa_path : List Char)
    (min_size max_size : Nat) (fs : ContentStore)
    (hstore : ∀ path file txt, fs path = some file → file.text = some txt →
        hasNNN txt = false)
    (c : List Char)
    (hc : _load_single_paper arxiv_id spiqa_path min_size max_size fs = some c) :
    hasNN c = false := by
  unfold _load_single_paper at hc
  obtain ⟨v, _, hsome⟩ := List.exists_of_findSome?_eq_some hc
  obtain ⟨file, txt, hfs, htxt, hcc⟩ := tryVersion_eq_some hsome
  subst hcc
  exact collapseNN_no_double txt (hstore _ file txt hfs htxt)

/-- C5 amended witness: `storePlain` has no triple newlines and the loaded
content has no double newline. -/
theorem no_double_newline_when_no_triple_witness :
    hasNN "alpha\nbeta".toList = false :=
  no_double_newline_when_no_triple "Z".toList "papers".toList 1024 4096 storePlain
    (by
      intro path file txt h1 h2
      unfold storePlain at h1
      split at h1
      · injection h1 with h1
        subst h1
        injection h2 with h2
        subst h2
        decide
      · exact absurd h1 (by simp))
    "alpha\nbeta".toList (by decide)

end MDAQA
